import Mathlib

/-!
A shallow embedding of the medication-search logic of
`src/app/(tabs)/home/search-results.jsx` (the `useEffect` body of
`SearchResultsScreen`), together with theorems settling the specification's
claims about it.

JavaScript strings are modelled as lists of natural numbers (code units);
`toLowerCase`, `trim`, `includes` and `join` are modelled code-unit-wise.
-/

/-- JavaScript strings: sequences of code units, modelled as lists of `Nat`. -/
abbrev Str : Type := List Nat

/-- `String.prototype.toLowerCase` on a single code unit (the ASCII range
exercised by the data): `A`–`Z` (65–90) map to `a`–`z` (97–122); everything
else is fixed. -/
def jsToLowerChar (c : Nat) : Nat := if 65 ≤ c ∧ c ≤ 90 then c + 32 else c

/-- `String.prototype.toLowerCase`, applied code-unit-wise. -/
def jsToLowerCase (s : Str) : Str := s.map jsToLowerChar

/-- White-space code units stripped by `String.prototype.trim`
(tab, LF, VT, FF, CR, space). -/
def jsIsWs (c : Nat) : Bool :=
  decide (c = 9 ∨ c = 10 ∨ c = 11 ∨ c = 12 ∨ c = 13 ∨ c = 32)

/-- `String.prototype.trim`: strip leading and trailing white space. -/
def jsTrim (s : Str) : Str :=
  ((s.dropWhile jsIsWs).reverse.dropWhile jsIsWs).reverse

/-- `hay.includes(needle)`: contiguous-substring containment. -/
def jsIncludes (hay needle : Str) : Bool := decide (needle <:+: hay)

/-- Code units of a Lean string literal; used to write concrete inputs. -/
def strLit (s : String) : Str := s.toList.map Char.toNat

/-- The `indications` field of a catalog entry. -/
structure Indications where
  keywords : List Str
deriving DecidableEq

/-- One entry of the `MEDICAMENTOS` catalog, as used by the search screen. -/
structure MedicationRecord where
  id : Nat
  name : Str
  category : Str
  indications : Indications
deriving DecidableEq

/-- The `adverseReactions` field of a user-panel drug. -/
structure AdverseReactions where
  symptoms : List Str
deriving DecidableEq

/-- One entry of `userDrugs` from the user panel context. -/
structure UserDrugEntry where
  name : Str
  adverseReactions : AdverseReactions
deriving DecidableEq

/-- The `results` state of the screen: three buckets of catalog records. -/
structure SearchResults where
  exact : List MedicationRecord
  similar : List MedicationRecord
  forSymptom : List MedicationRecord
deriving DecidableEq

/-- Line 34: `const lowerCaseQuery = query.toLowerCase().trim()`. -/
def lowerCaseQuery (query : Str) : Str := jsTrim (jsToLowerCase query)

/-- Line 37: `MEDICAMENTOS.filter(m => m.name.toLowerCase() === lowerCaseQuery)`. -/
def exactMatch (catalog : List MedicationRecord) (q : Str) : List MedicationRecord :=
  catalog.filter fun m => decide (jsToLowerCase m.name = q)

/-- Lines 40–42: records whose lower-cased name contains the query but is not
equal to it. -/
def partialMatch (catalog : List MedicationRecord) (q : Str) : List MedicationRecord :=
  catalog.filter fun m =>
    jsIncludes (jsToLowerCase m.name) q && decide (jsToLowerCase m.name ≠ q)

/-- Lines 45–47: records one of whose indication keywords contains the query.
Note the source does not case-fold the keyword. -/
def forSymptomMatch (catalog : List MedicationRecord) (q : Str) : List MedicationRecord :=
  catalog.filter fun m =>
    m.indications.keywords.any fun keyword => jsIncludes keyword q

/-- Lines 50–56: when `exact` is non-empty, all records sharing the first
exact match's category, except the first exact match itself (by id). -/
def similarMatch (catalog exact : List MedicationRecord) : List MedicationRecord :=
  match exact with
  | [] => []
  | e0 :: _ =>
    catalog.filter fun m => decide (m.category = e0.category) && decide (m.id ≠ e0.id)

/-- Lines 59–64: similar-by-category entries, then the partial entries whose
id occurs neither among them nor in `exact`. -/
def similarAndPartial (similar partials exact : List MedicationRecord) :
    List MedicationRecord :=
  similar ++ partials.filter fun pm =>
    !(similar.any fun sm => decide (sm.id = pm.id)) &&
      !(exact.any fun em => decide (em.id = pm.id))

/-- `Array.prototype.join(', ')`. -/
def joinComma : List Str → Str
  | [] => []
  | [s] => s
  | s :: rest => s ++ (44 :: 32 :: joinComma rest)

/-- Lines 73–80: names of the user drugs one of whose adverse-reaction
symptoms (case-folded) contains the query, joined by `", "`. -/
def conflictingDrugs (userDrugs : List UserDrugEntry) (q : Str) : Str :=
  joinComma ((userDrugs.filter fun drug =>
    drug.adverseReactions.symptoms.any fun symptom =>
      jsIncludes (jsToLowerCase symptom) q).map (fun drug => drug.name))

/-- Lines 82–86: the alert message, present when the joined string is truthy
(a non-empty string). The message interpolates the raw `query`. -/
def symptomAlert (query : Str) (userDrugs : List UserDrugEntry) : Option Str :=
  let c := conflictingDrugs userDrugs (lowerCaseQuery query)
  if c ≠ [] then
    some (strLit "O sintoma \"" ++ query ++
      strLit "\" pode ser um efeito colateral de: " ++ c ++ strLit ".")
  else none

/-- One run of the search effect (lines 33–87): the three result sets stored
in `results` and the optional symptom alert. -/
def search (catalog : List MedicationRecord) (query : Str)
    (userDrugs : List UserDrugEntry) : SearchResults × Option Str :=
  let q := lowerCaseQuery query
  let exact := exactMatch catalog q
  ({ exact := exact,
     similar := similarAndPartial (similarMatch catalog exact) (partialMatch catalog q) exact,
     forSymptom := forSymptomMatch catalog q },
   symptomAlert query userDrugs)

/-- The screen reads `query` from the route parameters (line 23), which may be
absent (`undefined`); line 34 then evaluates `undefined.toLowerCase()`, which
throws a `TypeError`, modelled as `Except.error ()`. -/
def searchChecked (catalog : List MedicationRecord) (query : Option Str)
    (userDrugs : List UserDrugEntry) : Except Unit (SearchResults × Option Str) :=
  match query with
  | none => Except.error ()
  | some s => Except.ok (search catalog s userDrugs)

/-- The spec's first worked example: the two-record analgesic catalog. -/
def paracetamol : MedicationRecord :=
  { id := 1, name := strLit "Paracetamol", category := strLit "Analgesic",
    indications := { keywords := [strLit "fever", strLit "pain"] } }

/-- Second record of the spec's worked example. -/
def ibuprofen : MedicationRecord :=
  { id := 2, name := strLit "Ibuprofen", category := strLit "Analgesic",
    indications := { keywords := [strLit "pain", strLit "inflammation"] } }

example :
    (search [paracetamol, ibuprofen] (strLit "paracetamol") []).1 =
      { exact := [paracetamol], similar := [ibuprofen], forSymptom := [] } := by decide

example :
    (search [paracetamol, ibuprofen] (strLit "pain") []).1 =
      { exact := [], similar := [], forSymptom := [paracetamol, ibuprofen] } := by decide

/-! ### Normalization lemmas -/

theorem jsToLowerChar_idem (c : Nat) : jsToLowerChar (jsToLowerChar c) = jsToLowerChar c := by
  by_cases h : 65 ≤ c ∧ c ≤ 90
  · have h2 : ¬(65 ≤ c + 32 ∧ c + 32 ≤ 90) := by omega
    simp only [jsToLowerChar, if_pos h, if_neg h2]
  · simp only [jsToLowerChar, if_neg h]

theorem jsIsWs_jsToLowerChar (c : Nat) : jsIsWs (jsToLowerChar c) = jsIsWs c := by
  simp only [jsToLowerChar, jsIsWs, decide_eq_decide]
  split <;> omega

theorem jsToLowerCase_idem (s : Str) : jsToLowerCase (jsToLowerCase s) = jsToLowerCase s := by
  induction s with
  | nil => rfl
  | cons c t ih =>
    simp only [jsToLowerCase, List.map_cons] at ih ⊢
    rw [jsToLowerChar_idem]
    exact congrArg _ ih

theorem jsToLowerCase_dropWhile (s : Str) :
    List.dropWhile jsIsWs (jsToLowerCase s) = jsToLowerCase (List.dropWhile jsIsWs s) := by
  have hp : jsIsWs ∘ jsToLowerChar = jsIsWs := funext jsIsWs_jsToLowerChar
  simp only [jsToLowerCase]
  rw [List.dropWhile_map, hp]

theorem jsToLowerCase_reverse (s : Str) :
    jsToLowerCase s.reverse = (jsToLowerCase s).reverse := by
  simp [jsToLowerCase, List.map_reverse]

theorem jsToLowerCase_jsTrim (s : Str) :
    jsToLowerCase (jsTrim s) = jsTrim (jsToLowerCase s) := by
  simp only [jsTrim, jsToLowerCase_reverse, ← jsToLowerCase_dropWhile]

theorem jsTrim_eq_rdropWhile (s : Str) :
    jsTrim s = List.rdropWhile jsIsWs (List.dropWhile jsIsWs s) := rfl

theorem dropWhile_rdropWhile_dropWhile (p : Nat → Bool) (l : List Nat) :
    List.dropWhile p (List.rdropWhile p (List.dropWhile p l)) =
      List.rdropWhile p (List.dropWhile p l) := by
  rw [List.dropWhile_eq_self_iff]
  intro hl
  have hpre : List.rdropWhile p (List.dropWhile p l) <+: List.dropWhile p l :=
    List.rdropWhile_prefix _ _
  have hne : List.rdropWhile p (List.dropWhile p l) ≠ [] := List.ne_nil_of_length_pos hl
  rw [List.get_mk_zero, List.IsPrefix.head hpre hne]
  have hne2 : List.dropWhile p l ≠ [] := by
    intro h
    exact hne (by rw [h]; simp [List.rdropWhile_nil])
  have hid := List.dropWhile_idempotent p l
  rw [List.dropWhile_eq_self_iff] at hid
  have h0 : 0 < (List.dropWhile p l).length := List.length_pos.mpr hne2
  have hh := hid h0
  rwa [List.get_mk_zero] at hh

theorem jsTrim_idem (s : Str) : jsTrim (jsTrim s) = jsTrim s := by
  show List.rdropWhile jsIsWs (List.dropWhile jsIsWs
      (List.rdropWhile jsIsWs (List.dropWhile jsIsWs s))) =
    List.rdropWhile jsIsWs (List.dropWhile jsIsWs s)
  rw [dropWhile_rdropWhile_dropWhile, List.rdropWhile_idempotent]

theorem lowerCaseQuery_idem (q : Str) :
    lowerCaseQuery (lowerCaseQuery q) = lowerCaseQuery q := by
  simp only [lowerCaseQuery]
  rw [jsToLowerCase_jsTrim, jsToLowerCase_idem, jsTrim_idem]

theorem jsToLowerCase_lowerCaseQuery (q : Str) :
    jsToLowerCase (lowerCaseQuery q) = lowerCaseQuery q := by
  simp only [lowerCaseQuery]
  rw [jsToLowerCase_jsTrim, jsToLowerCase_idem]

/-! ### Membership characterizations of the four filters -/

theorem search_fst (catalog : List MedicationRecord) (query : Str)
    (userDrugs : List UserDrugEntry) :
    (search catalog query userDrugs).1 =
      { exact := exactMatch catalog (lowerCaseQuery query),
        similar := similarAndPartial
          (similarMatch catalog (exactMatch catalog (lowerCaseQuery query)))
          (partialMatch catalog (lowerCaseQuery query))
          (exactMatch catalog (lowerCaseQuery query)),
        forSymptom := forSymptomMatch catalog (lowerCaseQuery query) } := rfl

theorem search_snd (catalog : List MedicationRecord) (query : Str)
    (userDrugs : List UserDrugEntry) :
    (search catalog query userDrugs).2 = symptomAlert query userDrugs := rfl

theorem mem_exactMatch {catalog : List MedicationRecord} {q : Str} {m : MedicationRecord} :
    m ∈ exactMatch catalog q ↔ m ∈ catalog ∧ jsToLowerCase m.name = q := by
  simp [exactMatch, List.mem_filter]

theorem mem_partialMatch {catalog : List MedicationRecord} {q : Str} {m : MedicationRecord} :
    m ∈ partialMatch catalog q ↔
      m ∈ catalog ∧ jsIncludes (jsToLowerCase m.name) q = true ∧ jsToLowerCase m.name ≠ q := by
  simp [partialMatch, List.mem_filter]

theorem mem_forSymptomMatch {catalog : List MedicationRecord} {q : Str} {m : MedicationRecord} :
    m ∈ forSymptomMatch catalog q ↔
      m ∈ catalog ∧ ∃ k ∈ m.indications.keywords, jsIncludes k q = true := by
  simp [forSymptomMatch, List.mem_filter, List.any_eq_true]

theorem mem_similarMatch_cons {catalog : List MedicationRecord} {e0 : MedicationRecord}
    {t : List MedicationRecord} {m : MedicationRecord} :
    m ∈ similarMatch catalog (e0 :: t) ↔
      m ∈ catalog ∧ m.category = e0.category ∧ m.id ≠ e0.id := by
  simp [similarMatch, List.mem_filter]

theorem mem_similarAndPartial {sims partials exact : List MedicationRecord}
    {m : MedicationRecord} :
    m ∈ similarAndPartial sims partials exact ↔
      m ∈ sims ∨ (m ∈ partials ∧ (∀ sm ∈ sims, sm.id ≠ m.id) ∧
        ∀ em ∈ exact, em.id ≠ m.id) := by
  simp [similarAndPartial, List.mem_filter, List.mem_append, List.any_eq_true]

/-! ### Claim theorems -/

/-- C4: for every catalog and query, the `exact` result set contains exactly
the catalog records whose name case-insensitively equals the normalized
query. -/
theorem C4_exact_iff_name_equals (catalog : List MedicationRecord) (query : Str)
    (userDrugs : List UserDrugEntry) (m : MedicationRecord) :
    m ∈ (search catalog query userDrugs).1.exact ↔
      m ∈ catalog ∧ jsToLowerCase m.name = jsToLowerCase (lowerCaseQuery query) := by
  rw [jsToLowerCase_lowerCaseQuery, search_fst]
  exact mem_exactMatch

/-- A record whose only indication keyword is `"Fever"` (upper-case `F`). -/
def tylenol : MedicationRecord :=
  { id := 3, name := strLit "Tylenol", category := strLit "Analgesic",
    indications := { keywords := [strLit "Fever"] } }

/-- C3 counterexample: for the catalog `[tylenol]` and the query `"fever"`,
the keyword `"Fever"` contains the normalized query case-insensitively, yet
the record is not in `forSymptom`: the source compares the keyword without
case-folding it, so the comparison is not case-insensitive on both sides. -/
theorem C3_counterexample :
    jsIncludes (jsToLowerCase (strLit "Fever"))
        (jsToLowerCase (lowerCaseQuery (strLit "fever"))) = true ∧
      tylenol ∉ (search [tylenol] (strLit "fever") []).1.forSymptom := by
  decide

/-- C3 amended: a record appears in `forSymptom` iff one of its indication
keywords, compared as written (not case-folded), contains the normalized
query as a substring. -/
theorem C3_forSymptom_iff_keyword_contains (catalog : List MedicationRecord)
    (query : Str) (userDrugs : List UserDrugEntry) (m : MedicationRecord) :
    m ∈ (search catalog query userDrugs).1.forSymptom ↔
      m ∈ catalog ∧ ∃ k ∈ m.indications.keywords,
        jsIncludes k (lowerCaseQuery query) = true := by
  rw [search_fst]
  exact mem_forSymptomMatch

/-- C5: when the `exact` result set is empty, the `similar` result set is
exactly the partial-name-match set, with no category-based additions. -/
theorem C5_similar_eq_partial_of_exact_empty (catalog : List MedicationRecord)
    (query : Str) (userDrugs : List UserDrugEntry)
    (h : (search catalog query userDrugs).1.exact = []) :
    (search catalog query userDrugs).1.similar =
      partialMatch catalog (lowerCaseQuery query) := by
  rw [search_fst] at h ⊢
  simp only at h ⊢
  rw [h]
  simp [similarMatch, similarAndPartial]

/-- C5 witness: on the one-record catalog and the query `"para"`, `exact` is
empty and `similar` equals the partial-match set. -/
theorem C5_witness :
    (search [paracetamol] (strLit "para") []).1.exact = [] ∧
      (search [paracetamol] (strLit "para") []).1.similar =
        partialMatch [paracetamol] (lowerCaseQuery (strLit "para")) :=
  ⟨by decide, C5_similar_eq_partial_of_exact_empty [paracetamol] (strLit "para") [] (by decide)⟩

theorem similarMatch_sublist (catalog exact : List MedicationRecord) :
    List.Sublist (similarMatch catalog exact) catalog := by
  cases exact with
  | nil => simp [similarMatch]
  | cons e0 t => exact List.filter_sublist _

theorem partialMatch_sublist (catalog : List MedicationRecord) (q : Str) :
    List.Sublist (partialMatch catalog q) catalog :=
  List.filter_sublist _

/-- C10: when `exact` is non-empty, every record of `similar` is a catalog
record that either shares the first exact match's category with a different
id, or whose case-folded name strictly contains the normalized query. -/
theorem C10_similar_sound (catalog : List MedicationRecord) (query : Str)
    (userDrugs : List UserDrugEntry)
    (h : (search catalog query userDrugs).1.exact ≠ []) :
    ∀ m ∈ (search catalog query userDrugs).1.similar,
      m ∈ catalog ∧
        ((∃ e0, (search catalog query userDrugs).1.exact.head? = some e0 ∧
            m.category = e0.category ∧ m.id ≠ e0.id) ∨
          (jsIncludes (jsToLowerCase m.name) (lowerCaseQuery query) = true ∧
            jsToLowerCase m.name ≠ lowerCaseQuery query)) := by
  rw [search_fst] at h ⊢
  simp only at h ⊢
  intro m hm
  cases hE : exactMatch catalog (lowerCaseQuery query) with
  | nil => exact absurd hE h
  | cons e0 t =>
    rw [hE] at hm
    rcases mem_similarAndPartial.mp hm with hsim | ⟨hpart, _, _⟩
    · rcases mem_similarMatch_cons.mp hsim with ⟨hc, hcat, hid⟩
      exact ⟨hc, Or.inl ⟨e0, rfl, hcat, hid⟩⟩
    · rcases mem_partialMatch.mp hpart with ⟨hc, hinc, hne⟩
      exact ⟨hc, Or.inr ⟨hinc, hne⟩⟩

/-- C10 witness: the spec's worked example, query `"paracetamol"`. -/
theorem C10_witness :
    (search [paracetamol, ibuprofen] (strLit "paracetamol") []).1.exact ≠ [] ∧
      ∀ m ∈ (search [paracetamol, ibuprofen] (strLit "paracetamol") []).1.similar,
        m ∈ [paracetamol, ibuprofen] ∧
          ((∃ e0, (search [paracetamol, ibuprofen] (strLit "paracetamol")
                []).1.exact.head? = some e0 ∧
              m.category = e0.category ∧ m.id ≠ e0.id) ∨
            (jsIncludes (jsToLowerCase m.name)
                (lowerCaseQuery (strLit "paracetamol")) = true ∧
              jsToLowerCase m.name ≠ lowerCaseQuery (strLit "paracetamol"))) :=
  ⟨by decide,
    C10_similar_sound [paracetamol, ibuprofen] (strLit "paracetamol") [] (by decide)⟩

/-- The spec's category-mate block, in the spec's words: all catalog records
sharing the first exact match's category, excluding that match itself by id
(none when `exact` is empty), in catalog order. -/
def specSimilarBlock (catalog E : List MedicationRecord) : List MedicationRecord :=
  match E.head? with
  | none => []
  | some e0 => catalog.filter fun m => decide (m.category = e0.category ∧ m.id ≠ e0.id)

/-- The spec's remaining-partials block, in the spec's words: the catalog
records whose case-folded name strictly contains the query and whose id
occurs neither among the category-mate entries nor in `exact`, in catalog
order. -/
def specRemainingPartials (catalog E : List MedicationRecord) (q : Str) :
    List MedicationRecord :=
  catalog.filter fun m => decide (
    (jsIncludes (jsToLowerCase m.name) q = true ∧ jsToLowerCase m.name ≠ q) ∧
    m.id ∉ (specSimilarBlock catalog E).map (fun c => c.id) ∧
    m.id ∉ E.map (fun c => c.id))

theorem specSimilarBlock_eq (catalog E : List MedicationRecord) :
    similarMatch catalog E = specSimilarBlock catalog E := by
  cases E with
  | nil => rfl
  | cons e0 t =>
    show catalog.filter _ = catalog.filter _
    apply List.filter_congr
    intro m _
    simp

theorem specRemainingPartials_eq (catalog : List MedicationRecord) (q : Str)
    (E : List MedicationRecord) :
    ((partialMatch catalog q).filter fun pm =>
      !((similarMatch catalog E).any fun sm => decide (sm.id = pm.id)) &&
        !(E.any fun em => decide (em.id = pm.id))) =
    specRemainingPartials catalog E q := by
  simp only [partialMatch, List.filter_filter]
  simp only [specRemainingPartials, ← specSimilarBlock_eq]
  apply List.filter_congr
  intro m _
  rw [Bool.eq_iff_iff]
  simp only [Bool.and_eq_true, Bool.not_eq_true', List.any_eq_false, List.any_eq_true,
    decide_eq_true_eq, List.mem_map, not_exists, not_and, ne_eq]
  tauto

/-- C8: `exact` and `forSymptom` preserve catalog order (each is a
subsequence of the catalog), and `similar` consists exactly of the
category-mate entries in catalog order followed by the remaining
partial-name-match entries (those whose id occurs neither among the
category mates nor in `exact`) in catalog order. -/
theorem C8_bucket_order (catalog : List MedicationRecord) (query : Str)
    (userDrugs : List UserDrugEntry) :
    List.Sublist (search catalog query userDrugs).1.exact catalog ∧
    List.Sublist (search catalog query userDrugs).1.forSymptom catalog ∧
    (search catalog query userDrugs).1.similar =
      specSimilarBlock catalog (search catalog query userDrugs).1.exact ++
        specRemainingPartials catalog (search catalog query userDrugs).1.exact
          (lowerCaseQuery query) := by
  rw [search_fst]
  simp only
  refine ⟨List.filter_sublist _, List.filter_sublist _, ?_⟩
  simp only [similarAndPartial]
  rw [specRemainingPartials_eq, specSimilarBlock_eq]

/-- C9: searching with the already-normalized query returns the same three
result sets, and an alert is present for the normalized query exactly when
one is present for the raw query. -/
theorem C9_normalized_query_same_results (catalog : List MedicationRecord)
    (query : Str) (userDrugs : List UserDrugEntry) :
    (search catalog (lowerCaseQuery query) userDrugs).1 =
        (search catalog query userDrugs).1 ∧
      ((search catalog (lowerCaseQuery query) userDrugs).2.isSome ↔
        (search catalog query userDrugs).2.isSome) := by
  constructor
  · rw [search_fst, search_fst, lowerCaseQuery_idem]
  · rw [search_snd, search_snd]
    simp only [symptomAlert, lowerCaseQuery_idem]
    by_cases hc : conflictingDrugs userDrugs (lowerCaseQuery query) ≠ []
    · rw [if_pos hc, if_pos hc]; simp
    · rw [if_neg hc, if_neg hc]

/-- Two records with the same name and category but different ids. -/
def drugA1 : MedicationRecord :=
  { id := 1, name := strLit "a", category := strLit "x",
    indications := { keywords := [] } }

/-- Second record of the duplicate-name catalog. -/
def drugA2 : MedicationRecord :=
  { id := 2, name := strLit "a", category := strLit "x",
    indications := { keywords := [] } }

/-- C1 counterexample: on a catalog with two records of the same name and
category, the query `"a"` makes both exact matches, yet the second one also
appears in `similar` (the category scan only excludes the first exact
match's id, and the merge filters only the partial entries against
`exact`). -/
theorem C1_counterexample :
    drugA2 ∈ (search [drugA1, drugA2] (strLit "a") []).1.exact ∧
      drugA2 ∈ (search [drugA1, drugA2] (strLit "a") []).1.similar := by
  decide

theorem exactMatch_length_le_one (catalog : List MedicationRecord) (q : Str)
    (hname : (catalog.map fun m => jsToLowerCase m.name).Nodup) :
    exactMatch catalog q = [] ∨ ∃ e0, exactMatch catalog q = [e0] := by
  cases hE : exactMatch catalog q with
  | nil => exact Or.inl rfl
  | cons e0 t =>
    refine Or.inr ⟨e0, ?_⟩
    cases t with
    | nil => rfl
    | cons e1 t2 =>
      exfalso
      have hsub : List.Sublist (exactMatch catalog q) catalog := List.filter_sublist _
      have hnd : ((exactMatch catalog q).map fun m => jsToLowerCase m.name).Nodup :=
        List.Nodup.sublist (hsub.map _) hname
      have he0 : e0 ∈ exactMatch catalog q := by rw [hE]; exact List.mem_cons_self _ _
      have he1 : e1 ∈ exactMatch catalog q := by rw [hE]; simp
      have h0 := (mem_exactMatch.mp he0).2
      have h1 := (mem_exactMatch.mp he1).2
      rw [hE, List.map_cons, List.map_cons, List.nodup_cons] at hnd
      apply hnd.1
      rw [h0, h1]
      exact List.mem_cons_self _ _

theorem mem_merge_filter {sims partials exact : List MedicationRecord}
    {pm : MedicationRecord}
    (h : pm ∈ partials.filter fun x =>
      !(sims.any fun sm => decide (sm.id = x.id)) &&
        !(exact.any fun em => decide (em.id = x.id))) :
    pm ∈ partials ∧ (∀ sm ∈ sims, sm.id ≠ pm.id) ∧ ∀ em ∈ exact, em.id ≠ pm.id := by
  have h' := List.mem_filter.mp h
  refine ⟨h'.1, ?_, ?_⟩ <;>
    · have hb := h'.2
      simp only [Bool.and_eq_true, Bool.not_eq_true', List.any_eq_false,
        decide_eq_true_eq] at hb
      first
      | exact fun x hx => hb.1 x hx
      | exact fun x hx => hb.2 x hx

theorem nodup_ids_of_sublist {l catalog : List MedicationRecord}
    (h : List.Sublist l catalog) (hid : (catalog.map fun m => m.id).Nodup) :
    (l.map fun m => m.id).Nodup :=
  List.Nodup.sublist (h.map _) hid

/-- C1 amended: for catalogs whose records have pairwise-distinct ids and
pairwise-distinct case-folded names, `similar` never contains a record of
`exact` and never contains two entries with the same id. -/
theorem C1_similar_disjoint_nodup (catalog : List MedicationRecord) (query : Str)
    (userDrugs : List UserDrugEntry)
    (hid : (catalog.map fun m => m.id).Nodup)
    (hname : (catalog.map fun m => jsToLowerCase m.name).Nodup) :
    (∀ m ∈ (search catalog query userDrugs).1.similar,
        m ∉ (search catalog query userDrugs).1.exact) ∧
      ((search catalog query userDrugs).1.similar.map fun m => m.id).Nodup := by
  rw [search_fst]
  simp only
  rcases exactMatch_length_le_one catalog (lowerCaseQuery query) hname with hE | ⟨e0, hE⟩ <;>
    rw [hE]
  · constructor
    · intro m _
      exact List.not_mem_nil m
    · exact nodup_ids_of_sublist
        ((List.filter_sublist _).trans (partialMatch_sublist _ _)) hid
  · constructor
    · intro m hm
      rcases mem_similarAndPartial.mp hm with hsim | ⟨_, _, hex⟩
      · rcases mem_similarMatch_cons.mp hsim with ⟨_, _, hid'⟩
        simp only [List.mem_singleton]
        intro heq
        exact hid' (by rw [heq])
      · simp only [List.mem_singleton]
        intro heq
        exact hex e0 (List.mem_cons_self _ _) (by rw [heq])
    · have hdef : similarAndPartial (similarMatch catalog [e0])
          (partialMatch catalog (lowerCaseQuery query)) [e0]
          = similarMatch catalog [e0] ++
            (partialMatch catalog (lowerCaseQuery query)).filter (fun x =>
              !(List.any (similarMatch catalog [e0]) fun sm => decide (sm.id = x.id)) &&
                !(List.any [e0] fun em => decide (em.id = x.id))) := rfl
      rw [hdef, List.map_append, List.nodup_append]
      refine ⟨nodup_ids_of_sublist (similarMatch_sublist _ _) hid,
        nodup_ids_of_sublist ((List.filter_sublist _).trans (partialMatch_sublist _ _)) hid,
        ?_⟩
      rw [List.disjoint_left]
      intro a ha ha'
      rcases List.mem_map.mp ha with ⟨sm, hsm, rfl⟩
      rcases List.mem_map.mp ha' with ⟨pm, hpm, hpmid⟩
      exact (mem_merge_filter hpm).2.1 sm hsm hpmid.symm

/-- C1 witness: the worked example's catalog has distinct ids and names, and
the amended invariant holds there for the query `"paracetamol"`. -/
theorem C1_witness :
    (([paracetamol, ibuprofen].map fun m => m.id).Nodup ∧
        ([paracetamol, ibuprofen].map fun m => jsToLowerCase m.name).Nodup) ∧
      (∀ m ∈ (search [paracetamol, ibuprofen] (strLit "paracetamol") []).1.similar,
          m ∉ (search [paracetamol, ibuprofen] (strLit "paracetamol") []).1.exact) ∧
        ((search [paracetamol, ibuprofen] (strLit "paracetamol") []).1.similar.map
          fun m => m.id).Nodup :=
  ⟨⟨by decide, by decide⟩,
    C1_similar_disjoint_nodup [paracetamol, ibuprofen] (strLit "paracetamol") []
      (by decide) (by decide)⟩

theorem joinComma_eq_nil_iff {l : List Str} (h : ∀ s ∈ l, s ≠ []) :
    joinComma l = [] ↔ l = [] := by
  cases l with
  | nil => simp [joinComma]
  | cons s rest =>
    cases rest with
    | nil =>
      have hs := h s (List.mem_cons_self _ _)
      simp [joinComma, hs]
    | cons s2 r2 => simp [joinComma]

/-- A user drug with an empty name and the symptom `"nausea"`. -/
def unnamedDrug : UserDrugEntry :=
  { name := [], adverseReactions := { symptoms := [strLit "nausea"] } }

/-- C2 counterexample: a user drug with an empty name has a symptom matching
the query `"nausea"`, yet no alert is produced — the joined name string is
empty and therefore falsy. -/
theorem C2_counterexample :
    (∃ d ∈ [unnamedDrug], ∃ s ∈ d.adverseReactions.symptoms,
        jsIncludes (jsToLowerCase s) (lowerCaseQuery (strLit "nausea")) = true) ∧
      (search [] (strLit "nausea") [unnamedDrug]).2 = none := by
  decide

/-- C2 amended: when every user drug has a non-empty name, an alert is
produced iff some user drug has a symptom (case-folded) containing the
normalized query, and the message lists exactly the matching drugs' names
joined by `", "` in input order. -/
theorem C2_conflict_alert (catalog : List MedicationRecord) (query : Str)
    (userDrugs : List UserDrugEntry) (hnm : ∀ d ∈ userDrugs, d.name ≠ []) :
    ((search catalog query userDrugs).2.isSome = true ↔
        ∃ d ∈ userDrugs, ∃ s ∈ d.adverseReactions.symptoms,
          jsIncludes (jsToLowerCase s) (lowerCaseQuery query) = true) ∧
      ∀ msg, (search catalog query userDrugs).2 = some msg →
        msg = strLit "O sintoma \"" ++ query ++
          strLit "\" pode ser um efeito colateral de: " ++
          joinComma ((userDrugs.filter fun d =>
            d.adverseReactions.symptoms.any fun s =>
              jsIncludes (jsToLowerCase s) (lowerCaseQuery query)).map
            fun d => d.name) ++ strLit "." := by
  rw [search_snd]
  have hnames : ∀ s ∈ (userDrugs.filter fun d =>
      d.adverseReactions.symptoms.any fun s =>
        jsIncludes (jsToLowerCase s) (lowerCaseQuery query)).map (fun d => d.name),
      s ≠ [] := by
    intro s hs
    rcases List.mem_map.mp hs with ⟨d, hd, rfl⟩
    exact hnm d (List.mem_of_mem_filter hd)
  have hjoin := joinComma_eq_nil_iff hnames
  have hKey : (conflictingDrugs userDrugs (lowerCaseQuery query) ≠ []) ↔
      ∃ d ∈ userDrugs, ∃ s ∈ d.adverseReactions.symptoms,
        jsIncludes (jsToLowerCase s) (lowerCaseQuery query) = true := by
    simp only [conflictingDrugs]
    rw [Ne, hjoin, List.map_eq_nil_iff]
    constructor
    · intro hne
      rcases List.exists_mem_of_ne_nil _ hne with ⟨d, hd⟩
      rcases List.mem_filter.mp hd with ⟨hdu, hp⟩
      rcases List.any_eq_true.mp hp with ⟨s, hs, hinc⟩
      exact ⟨d, hdu, s, hs, hinc⟩
    · rintro ⟨d, hdu, s, hs, hinc⟩ h0
      have hdf : d ∈ userDrugs.filter fun d =>
          d.adverseReactions.symptoms.any fun s =>
            jsIncludes (jsToLowerCase s) (lowerCaseQuery query) :=
        List.mem_filter.mpr ⟨hdu, List.any_eq_true.mpr ⟨s, hs, hinc⟩⟩
      rw [h0] at hdf
      exact List.not_mem_nil d hdf
  constructor
  · simp only [symptomAlert]
    by_cases hc : conflictingDrugs userDrugs (lowerCaseQuery query) ≠ []
    · rw [if_pos hc]
      exact iff_of_true rfl (hKey.mp hc)
    · rw [if_neg hc]
      exact iff_of_false (by simp) fun hex => hc (hKey.mpr hex)
  · intro msg hmsg
    simp only [symptomAlert] at hmsg
    by_cases hc : conflictingDrugs userDrugs (lowerCaseQuery query) ≠ []
    · rw [if_pos hc] at hmsg
      rw [← Option.some.inj hmsg]
      rfl
    · rw [if_neg hc] at hmsg
      cases hmsg

/-- The spec's conflict example: Aspirin with symptoms nausea and bleeding. -/
def aspirin : UserDrugEntry :=
  { name := strLit "Aspirin",
    adverseReactions := { symptoms := [strLit "nausea", strLit "bleeding"] } }

/-- C2 witness: the spec's conflict example, query `"nausea"`. -/
theorem C2_witness :
    (∀ d ∈ [aspirin], d.name ≠ []) ∧
      (((search [] (strLit "nausea") [aspirin]).2.isSome = true ↔
          ∃ d ∈ [aspirin], ∃ s ∈ d.adverseReactions.symptoms,
            jsIncludes (jsToLowerCase s) (lowerCaseQuery (strLit "nausea")) = true) ∧
        ∀ msg, (search [] (strLit "nausea") [aspirin]).2 = some msg →
          msg = strLit "O sintoma \"" ++ strLit "nausea" ++
            strLit "\" pode ser um efeito colateral de: " ++
            joinComma (([aspirin].filter fun d =>
              d.adverseReactions.symptoms.any fun s =>
                jsIncludes (jsToLowerCase s) (lowerCaseQuery (strLit "nausea"))).map
              fun d => d.name) ++ strLit ".") :=
  ⟨by decide, C2_conflict_alert [] (strLit "nausea") [aspirin] (by decide)⟩

theorem jsIncludes_nil (s : Str) : jsIncludes s [] = true := by
  simp only [jsIncludes, decide_eq_true_eq]
  exact List.nil_infix

theorem lowerCaseQuery_eq_nil_of_ws (q : Str) (hq : ∀ c ∈ q, jsIsWs c = true) :
    lowerCaseQuery q = [] := by
  have h1 : ∀ c ∈ jsToLowerCase q, jsIsWs c = true := by
    intro c hc
    rcases List.mem_map.mp hc with ⟨c0, hc0, rfl⟩
    rw [jsIsWs_jsToLowerChar]
    exact hq c0 hc0
  have h2 : List.dropWhile jsIsWs (jsToLowerCase q) = [] :=
    List.dropWhile_eq_nil_iff.mpr h1
  simp only [lowerCaseQuery, jsTrim]
  rw [h2]
  rfl

/-- C6 counterexample: an empty query does not yield empty result sets (the
spec's worked catalog record shows up in `forSymptom`), and a missing query
makes the effect throw rather than return empty results. -/
theorem C6_counterexample :
    (search [paracetamol] [] []).1.forSymptom ≠ [] ∧
      searchChecked [paracetamol] none [] = Except.error () := by
  exact ⟨by decide, rfl⟩

/-- C6 amended: an empty or whitespace-only query is not special-cased: it
normalizes to the empty string, so every catalog record with at least one
indication keyword is in `forSymptom` and every record with a non-empty
case-folded name is a partial name match, while a missing query throws. -/
theorem C6_empty_query_not_special_cased (catalog : List MedicationRecord)
    (q : Str) (userDrugs : List UserDrugEntry) (hq : ∀ c ∈ q, jsIsWs c = true) :
    (∀ m ∈ catalog,
        (m ∈ (search catalog q userDrugs).1.forSymptom ↔
          m.indications.keywords ≠ [])) ∧
      (∀ m ∈ catalog,
        (m ∈ partialMatch catalog (lowerCaseQuery q) ↔ jsToLowerCase m.name ≠ [])) ∧
      searchChecked catalog none userDrugs = Except.error () := by
  have hnil := lowerCaseQuery_eq_nil_of_ws q hq
  refine ⟨?_, ?_, rfl⟩
  · intro m hm
    rw [search_fst]
    simp only
    rw [mem_forSymptomMatch, hnil]
    simp only [jsIncludes_nil]
    constructor
    · rintro ⟨_, k, hk, _⟩ hempty
      rw [hempty] at hk
      exact List.not_mem_nil k hk
    · intro hne
      rcases List.exists_mem_of_ne_nil _ hne with ⟨k, hk⟩
      exact ⟨hm, k, hk, trivial⟩
  · intro m hm
    rw [mem_partialMatch, hnil]
    simp only [jsIncludes_nil]
    constructor
    · rintro ⟨_, _, hne⟩
      exact hne
    · intro hne
      exact ⟨hm, trivial, hne⟩

/-- C6 witness: the all-whitespace query `"  "` on the worked catalog. -/
theorem C6_witness :
    (∀ c ∈ strLit "  ", jsIsWs c = true) ∧
      ((∀ m ∈ [paracetamol],
          (m ∈ (search [paracetamol] (strLit "  ") []).1.forSymptom ↔
            m.indications.keywords ≠ [])) ∧
        (∀ m ∈ [paracetamol],
          (m ∈ partialMatch [paracetamol] (lowerCaseQuery (strLit "  ")) ↔
            jsToLowerCase m.name ≠ [])) ∧
        searchChecked [paracetamol] none [] = Except.error ()) :=
  ⟨by decide, C6_empty_query_not_special_cased [paracetamol] (strLit "  ") [] (by decide)⟩

/-- C7 counterexample: with the query route parameter absent, the search
effect throws a `TypeError` instead of completing, refuting totality over
all inputs. -/
theorem C7_counterexample :
    searchChecked [paracetamol, ibuprofen] none [aspirin] = Except.error () := rfl

/-- C7 amended: for every string query — empty, non-normalized or otherwise —
the search completes and returns a result; only a missing (undefined) query
makes it throw. -/
theorem C7_total_on_strings (catalog : List MedicationRecord) (q : Str)
    (userDrugs : List UserDrugEntry) :
    searchChecked catalog (some q) userDrugs =
      Except.ok (search catalog q userDrugs) := rfl
